import Mathlib

/-!
Verification of the forecast-orchestration core of the pharma sales
forecasting service (`ml-services/realmodel.py` and
`ml-services/utils/data_processor.py`), shallowly embedded in Lean.

Timestamps are modelled as rationals measured in hours (a parsed datetime is
an instant on the time axis; one unit = one hour, so a day is 24 units).
Channel values on the cleaning path are modelled by `PValue`, which keeps the
pandas distinctions between NaN, positive/negative infinity and finite
floats; the forecasting paths, which operate after cleaning on plain floats,
use rationals directly.

The two trained artifacts (the Keras sequence model plus its scaler, and the
per-frequency Prophet model bundles) are opaque in the source and are
modelled as function parameters, exactly as the spec treats them.
-/

namespace PharmaSpec

/-! ## Configuration constants (realmodel.py lines 16-19) -/

/-- `PRODUCT_COLS = ["M01AB","M01AE","N02BA","N02BE","N05B","N05C","R03","R06"]`. -/
def PRODUCT_COLS : List String :=
  ["M01AB", "M01AE", "N02BA", "N02BE", "N05B", "N05C", "R03", "R06"]

/-- `SEQ_LEN = int(os.getenv("SEQ_LEN", 168))`: the default window length. -/
def SEQ_LEN : Nat := 168

/-! ## Pandas cell values

A float cell of a DataFrame is NaN, `+inf`, `-inf`, or a finite number.
`isna` is true only for NaN (pandas does not treat infinities as missing),
and `fillna(0.0)` replaces only NaN. -/

/-- A pandas float cell: NaN, an infinity, or a finite value. -/
inductive PValue where
  | nan : PValue
  | posInf : PValue
  | negInf : PValue
  | num : ℚ → PValue
deriving DecidableEq

/-- `pd.isna`: true exactly on NaN (infinities are not "na" in pandas). -/
def PValue.isna : PValue → Bool
  | .nan => true
  | _ => false

/-- A cell is finite iff it is an actual number (not NaN, not ±inf). -/
def PValue.isFinite : PValue → Bool
  | .num _ => true
  | _ => false

/-- `fillna(0.0)` on one cell: NaN becomes 0.0, everything else is kept. -/
def PValue.fillZero : PValue → PValue
  | .nan => .num 0
  | v => v

/-- One row of the uploaded table after column restriction: the parsed
`datum` timestamp (in hours) and the 8 product columns in `PRODUCT_COLS`
order. -/
structure Row where
  datum : ℚ
  products : List PValue
deriving DecidableEq

/-- The sort key of `df.sort_values(DATE_COL)`: compare rows by timestamp. -/
def rowLE (a b : Row) : Prop := a.datum ≤ b.datum

instance : DecidableRel rowLE := fun a b =>
  inferInstanceAs (Decidable (a.datum ≤ b.datum))

instance : IsTotal Row rowLE := ⟨fun a b => le_total a.datum b.datum⟩

instance : IsTrans Row rowLE := ⟨fun _ _ _ hab hbc => le_trans hab hbc⟩

/-- `_prep_dataframe` (realmodel.py lines 51-73), after the timestamp column
has been resolved and the columns restricted to `datum ++ PRODUCT_COLS`
(both are schema bookkeeping that the `Row` type already enforces):
sort ascending by timestamp, drop rows whose product cells are all NaN,
then fill the remaining NaN cells with 0.0. -/
def prepDataframe (df : List Row) : List Row :=
  let sorted := df.insertionSort rowLE
  let kept := sorted.filter (fun r => !(r.products.all PValue.isna))
  kept.map (fun r => { r with products := r.products.map PValue.fillZero })

/-! ## Frequency detection (realmodel.py lines 116-158) -/

/-- `Series.diff().dropna()`: successive differences of a list. -/
def successiveDeltas : List ℚ → List ℚ
  | a :: b :: rest => (b - a) :: successiveDeltas (b :: rest)
  | _ => []

/-- Pandas `Series.median()`: sort; odd length takes the middle element,
even length averages the two middle elements (0 for an empty series,
where pandas would produce NaN — callers guard non-emptiness). -/
def median (xs : List ℚ) : ℚ :=
  let s := xs.insertionSort (· ≤ ·)
  let n := s.length
  if n = 0 then 0
  else if n % 2 = 1 then s.getD (n / 2) 0
  else (s.getD (n / 2 - 1) 0 + s.getD (n / 2) 0) / 2

/-- The manual median-gap thresholds of `_detect_frequency`
(realmodel.py lines 147-158): `<= 1.5` hours is hourly, `<= 25` daily,
`<= 200` weekly, otherwise monthly. -/
def classifyMedianGap (g : ℚ) : String :=
  if g ≤ 3 / 2 then "H"
  else if g ≤ 25 then "D"
  else if g ≤ 200 then "W"
  else "M"

/-- `df.sort_values(DATE_COL)` restricted to the timestamp column. -/
def sortTimestamps (ts : List ℚ) : List ℚ := ts.insertionSort (· ≤ ·)

/-- The median successive-timestamp gap in hours
(realmodel.py lines 143-144); timestamps are already in hours. -/
def medianGapHours (ts : List ℚ) : ℚ :=
  median (successiveDeltas (sortTimestamps ts))

/-- The manual (median-gap) classification path of `_detect_frequency`. -/
def manualDetectFrequency (ts : List ℚ) : String :=
  classifyMedianGap (medianGapHours ts)

/-- Prefix dispatch on a non-`None` result of `pd.infer_freq`
(realmodel.py lines 128-140); `none` means no prefix matched and the code
falls through to the manual median-gap rule. -/
def freqFromInferred (s : String) : Option String :=
  if s.toLower.startsWith "h" then some "H"
  else if s.toLower.startsWith "d" then some "D"
  else if s.toLower.startsWith "w" then some "W"
  else if s.toLower.startsWith "m" then some "M"
  else none

/-- `_detect_frequency` (realmodel.py lines 116-158). `inferFreq` is the
opaque `pd.infer_freq`: it may raise (pandas raises `ValueError` when the
index has fewer than 3 values), return `none` (inconclusive), or return an
inferred frequency string. A raised error propagates out of the detector;
an inconclusive or unrecognized inference falls back to the manual
median-gap rule. -/
def detectFrequency (inferFreq : List ℚ → Except String (Option String))
    (ts : List ℚ) : Except String String :=
  let sorted := sortTimestamps ts
  match inferFreq sorted with
  | .error e => .error e
  | .ok (some s) =>
      match freqFromInferred s with
      | some f => .ok f
      | none => .ok (manualDetectFrequency ts)
  | .ok none => .ok (manualDetectFrequency ts)

/-! ## Claims C1 and C8: frequency detection -/

/-- C1: For every cleaned series with at least 2 records, the frequency
detector's median-gap classification returns hourly for a median gap of at
most 1.5 hours, daily up to 25 hours, weekly up to 200 hours and monthly
beyond; in particular a median gap of exactly 1 hour yields hourly, exactly
24 hours daily, exactly 7 days (168 h, via timestamps 168 hours apart)
weekly and exactly 35 days (840 h) monthly. The classification is a Lean
function of the timestamps, hence deterministic. -/
theorem C1_median_gap_classification (ts : List ℚ) (h : 2 ≤ ts.length) :
    (medianGapHours ts ≤ 3 / 2 → manualDetectFrequency ts = "H") ∧
    (3 / 2 < medianGapHours ts → medianGapHours ts ≤ 25 →
      manualDetectFrequency ts = "D") ∧
    (25 < medianGapHours ts → medianGapHours ts ≤ 200 →
      manualDetectFrequency ts = "W") ∧
    (200 < medianGapHours ts → manualDetectFrequency ts = "M") ∧
    manualDetectFrequency [0, 1, 2] = "H" ∧
    manualDetectFrequency [0, 24, 48] = "D" ∧
    manualDetectFrequency [0, 168, 336] = "W" ∧
    manualDetectFrequency [0, 840, 1680] = "M" := by
  have heval : ∀ l : List ℚ, manualDetectFrequency l =
      classifyMedianGap (medianGapHours l) := fun _ => rfl
  refine ⟨?_, ?_, ?_, ?_, ?_, ?_, ?_, ?_⟩
  case _ | _ | _ | _ =>
    intros
    rw [heval]
    unfold classifyMedianGap
    split_ifs <;> first | rfl | (exfalso; linarith)
  all_goals
    norm_num [manualDetectFrequency, classifyMedianGap, medianGapHours,
      sortTimestamps, median, successiveDeltas, List.insertionSort,
      List.orderedInsert]

/-- Witness for C1 at the hourly series `[0, 1, 2]` (median gap exactly
1 hour). -/
theorem C1_median_gap_classification_witness :
    manualDetectFrequency [0, 1, 2] = "H" :=
  (C1_median_gap_classification [0, 1, 2] (by decide)).2.2.2.2.1

/-- C8: For every cleaned series with fewer than 2 records, the frequency
detector fails with the insufficient-data error instead of returning a
classification: `pd.infer_freq` raises on an index with fewer than 3 values
(modelled by the hypothesis on `inferFreq`), and `_detect_frequency`
propagates that failure. -/
theorem C8_insufficient_data_fails
    (inferFreq : List ℚ → Except String (Option String))
    (ts : List ℚ) (msg : String)
    (hinfer : ∀ l, l.length < 3 → inferFreq l = .error msg)
    (hts : ts.length < 2) :
    detectFrequency inferFreq ts = .error msg := by
  have hlen : (sortTimestamps ts).length < 3 := by
    have : (sortTimestamps ts).length = ts.length := by
      simp [sortTimestamps, List.length_insertionSort]
    omega
  unfold detectFrequency
  simp only [hinfer _ hlen]

/-- Witness for C8: a single-record series and an `infer_freq` that raises
below 3 values, as pandas does. -/
theorem C8_insufficient_data_fails_witness :
    detectFrequency
      (fun l => if l.length < 3 then .error "insufficient data" else .ok none)
      [0] = .error "insufficient data" :=
  C8_insufficient_data_fails
    (fun l => if l.length < 3 then .error "insufficient data" else .ok none)
    [0] "insufficient data" (fun l hl => by simp [hl]) (by decide)

/-! ## The sequence-model forecaster and the two response paths

The trained artifacts are opaque in the source: the Keras model is a
function from one `(SEQ_LEN, n_features)` window to a next-step vector, and
the MinMax scaler transforms/inverse-transforms feature-wise, i.e. row by
row. They are modelled as function parameters. `np.std` returns the square
root of the population variance, which is irrational in general; it is
likewise carried as an opaque nonnegative function parameter. -/

/-- The opaque artifacts of the sequence path: window length, predictor,
scaler (per-row transform and inverse transform), and `np.std`. -/
structure SeqModelConfig where
  seqLen : Nat
  predict : List (List ℚ) → List ℚ
  transform : List ℚ → List ℚ
  invTransform : List ℚ → List ℚ
  std : List ℚ → ℚ

/-- The per-step loop of `_multi_step_forecast` (realmodel.py lines 83-86):
predict on the current window, emit the prediction, then slide the window by
dropping its oldest row and appending the prediction (`np.vstack([seq[1:],
yhat])`). -/
def recursiveSteps (predict : List (List ℚ) → List ℚ) :
    Nat → List (List ℚ) → List (List ℚ)
  | 0, _ => []
  | h + 1, seq =>
      let yhat := predict seq
      yhat :: recursiveSteps predict h (seq.tail ++ [yhat])

/-- `_multi_step_forecast` (realmodel.py lines 75-89): run the recursive
loop for `horizon` steps, then inverse-transform each predicted row back to
the original scale. -/
def multiStepForecast (cfg : SeqModelConfig) (lastSeqScaled : List (List ℚ))
    (horizon : Nat) : List (List ℚ) :=
  (recursiveSteps cfg.predict horizon lastSeqScaled).map cfg.invTransform

/-- A cleaned row on the forecasting paths: timestamp (hours) and the
8 product values, already finite floats. -/
structure FRow where
  datum : ℚ
  products : List ℚ
deriving DecidableEq

/-- The JSON response assembled by `predict_csv`; dates are modelled as the
timestamps they render. `fallback` is the optional `"fallback": true` flag
(absent = `false`). -/
structure ForecastResponse where
  histDates : List ℚ
  histValues : List ℚ
  forecastDates : List ℚ
  forecastValues : List ℚ
  granularity : String
  frequency : String
  category : String
  fallback : Bool
deriving DecidableEq

/-- Python `max` of a list (the source only calls it on non-empty lists). -/
def qmax : List ℚ → ℚ
  | [] => 0
  | x :: xs => xs.foldl max x

/-- `np.mean`: sum divided by length (callers guard non-emptiness). -/
def qmean (l : List ℚ) : ℚ := l.sum / l.length

/-- The last `n` elements of a list (`l[-n:]`). -/
def lastN (n : Nat) (l : List ℚ) : List ℚ := l.drop (l.length - n)

/-- `hist_max = max(hist_values) if hist_values and max(hist_values) > 0
else 1.0` (realmodel.py lines 277 and 330). -/
def histMaxOr1 (histValues : List ℚ) : ℚ :=
  if histValues ≠ [] ∧ 0 < qmax histValues then qmax histValues else 1

/-- The sequence-path output bounder (realmodel.py lines 277-281):
`min(max(v, 0.0), hist_max + 2 * hist_std)`. -/
def boundSeq (histValues : List ℚ) (std : ℚ) (v : ℚ) : ℚ :=
  min (max v 0) (histMaxOr1 histValues + 2 * std)

/-- The additive-path output bounder (realmodel.py lines 334-343): negative
values become 0, values above `2 * hist_max` become `1.5 * hist_max`, and
everything else passes through unchanged. -/
def boundAdd (histValues : List ℚ) (v : ℚ) : ℚ :=
  let histMax := histMaxOr1 histValues
  if v < 0 then 0
  else if histMax * 2 < v then histMax * (3 / 2)
  else v

/-- `PRODUCT_COLS.index(category)` (realmodel.py line 265); the caller has
already forced `category ∈ PRODUCT_COLS`. -/
def categoryIndex (category : String) : Nat := PRODUCT_COLS.indexOf category

/-- The response record built by the hourly (LSTM) branch of `predict_csv`
(realmodel.py lines 241-302) once the history-length guard has passed.
`horizon = days` (line 243); forecast dates come from
`pd.date_range(start=last, periods=horizon+1, freq="H")[1:]`, i.e. one hour
apart starting one hour after the last historical timestamp. -/
def hourlyOk (cfg : SeqModelConfig) (df : List FRow) (days : Nat)
    (category : String) : ForecastResponse :=
  let horizon := days
  let scaled := (df.map FRow.products).map cfg.transform
  let lastSeqScaled := scaled.drop (scaled.length - cfg.seqLen)
  let preds := multiStepForecast cfg lastSeqScaled horizon
  let catIdx := categoryIndex category
  let categoryPreds := preds.map (fun r => r.getD catIdx 0)
  let startTs := qmax (df.map FRow.datum)
  let futureDates :=
    (List.range horizon).map (fun (i : Nat) => startTs + ((i : ℚ) + 1))
  let histValues := df.map (fun r => r.products.getD catIdx 0)
  let histStd := if histValues ≠ [] then cfg.std histValues else 1
  let forecastClipped := categoryPreds.map (boundSeq histValues histStd)
  { histDates := df.map FRow.datum
    histValues := histValues
    forecastDates := futureDates
    forecastValues := forecastClipped
    granularity := "hours"
    frequency := "H"
    category := category
    fallback := false }

/-- The hourly (LSTM) branch of `predict_csv`: reject with an HTTP 400 error
when fewer than `SEQ_LEN` rows of history exist (realmodel.py lines
247-250), otherwise answer with `hourlyOk`. -/
def hourlyPath (cfg : SeqModelConfig) (df : List FRow) (days : Nat)
    (category : String) : Except String ForecastResponse :=
  if df.length < cfg.seqLen then .error "Not enough history"
  else .ok (hourlyOk cfg df days category)

/-- `granularity_map.get(freq, "days")` (realmodel.py lines 347-348). -/
def granularityOf (freq : String) : String :=
  if freq = "D" then "days"
  else if freq = "W" then "weeks"
  else if freq = "M" then "months"
  else "days"

/-- The successful Prophet response (realmodel.py lines 307-366): historical
block plus the Prophet forecast run through the additive-path bounder. -/
def prophetResponse (histDates histValues forecastDates forecastValues : List ℚ)
    (freq category : String) : ForecastResponse :=
  { histDates := histDates
    histValues := histValues
    forecastDates := forecastDates
    forecastValues := forecastValues.map (boundAdd histValues)
    granularity := granularityOf freq
    frequency := freq
    category := category
    fallback := false }

/-- The trend fallback of the non-hourly branch (realmodel.py lines
368-395), taken on any Prophet failure: forecast `days` copies of
`0.9 * mean(last 30 values or all values)`, with daily future dates
(24-hour steps) after the last historical timestamp, flagged
`fallback: true`. -/
def fallbackResponse (histDates histValues : List ℚ) (days : Nat)
    (freq category : String) : ForecastResponse :=
  let recentAvg :=
    if 30 ≤ histValues.length then qmean (lastN 30 histValues)
    else qmean histValues
  let forecastValues := List.replicate days (recentAvg * (9 / 10))
  let futureDates :=
    (List.range days).map (fun (i : Nat) => qmax histDates + ((i : ℚ) + 1) * 24)
  { histDates := histDates
    histValues := histValues
    forecastDates := futureDates
    forecastValues := forecastValues
    granularity := "days"
    frequency := freq
    category := category
    fallback := true }

/-- The non-hourly (Prophet) branch of `predict_csv` (realmodel.py lines
304-395). `prophet` stands for the whole opaque
`_get_prophet_model` / `make_future_dataframe` / `predict` / `tail(days)`
pipeline: it either produces the future dates and `yhat` values, or fails
(any raised exception). The branch itself always produces a response:
a Prophet failure is answered by the trend fallback, never by an error. -/
def nonHourlyPath (prophet : Except String (List ℚ × List ℚ)) (df : List FRow)
    (days : Nat) (freq category : String) : ForecastResponse :=
  let catIdx := categoryIndex category
  let histValues := df.map (fun r => r.products.getD catIdx 0)
  let histDates := df.map FRow.datum
  match prophet with
  | .ok (fdates, fvals) =>
      prophetResponse histDates histValues fdates fvals freq category
  | .error _ => fallbackResponse histDates histValues days freq category

/-- `category = PRODUCT_COLS[0]` substitution for an absent, empty or
unknown category (realmodel.py lines 236-239): `if not category or category
not in PRODUCT_COLS: category = PRODUCT_COLS[0]`. -/
def resolveCategory (category : Option String) : String :=
  match category with
  | none => PRODUCT_COLS.headD ""
  | some c => if c = "" ∨ c ∉ PRODUCT_COLS then PRODUCT_COLS.headD "" else c

/-! ## Shared helper lemmas -/

/-- The recursive loop emits exactly one row per step. -/
theorem recursiveSteps_length (predict : List (List ℚ) → List ℚ) (h : Nat)
    (seq : List (List ℚ)) : (recursiveSteps predict h seq).length = h := by
  induction h generalizing seq with
  | zero => rfl
  | succ k ih => simp [recursiveSteps, ih]

/-- If the predictor turns any all-width-`n` window into a width-`n` vector,
every row the recursive loop emits has width `n`. -/
theorem recursiveSteps_width (predict : List (List ℚ) → List ℚ) (n : Nat)
    (hpred : ∀ w, (∀ r ∈ w, r.length = n) → (predict w).length = n) :
    ∀ (h : Nat) (seq : List (List ℚ)), (∀ r ∈ seq, r.length = n) →
      ∀ r ∈ recursiveSteps predict h seq, r.length = n := by
  intro h
  induction h with
  | zero => intro seq _ r hr; simp [recursiveSteps] at hr
  | succ k ih =>
      intro seq hseq r hr
      simp only [recursiveSteps, List.mem_cons] at hr
      rcases hr with rfl | hr
      · exact hpred seq hseq
      · refine ih _ ?_ r hr
        intro x hx
        rcases List.mem_append.1 hx with hx | hx
        · exact hseq x (List.mem_of_mem_tail hx)
        · rw [List.mem_singleton.1 hx]
          exact hpred seq hseq

/-- Evaluate `getD` on a list built by mapping over `List.range`. -/
theorem getD_map_range (f : Nat → ℚ) (n i : Nat) (hi : i < n) :
    ((List.range n).map f).getD i 0 = f i := by
  simp [List.getD_eq_getElem?_getD, List.getElem?_map, List.getElem?_range, hi]

/-! ## Claim C4: the recursive multi-step forecaster's output shape -/

/-- C4: For every horizon ≥ 1 and input window of exactly `seq_len` rows,
`_multi_step_forecast` returns exactly `horizon` rows whose channel width
equals the window's width, where the opaque predictor maps a window to one
next-step vector of the same width and the scaler inverse-transform is
shape-preserving. -/
theorem C4_recursive_forecaster_shape (cfg : SeqModelConfig)
    (seq : List (List ℚ)) (horizon n : Nat)
    (hh : 1 ≤ horizon) (hlen : seq.length = cfg.seqLen)
    (hwin : ∀ r ∈ seq, r.length = n)
    (hpred : ∀ w, (∀ r ∈ w, r.length = n) → (cfg.predict w).length = n)
    (hinv : ∀ v, (cfg.invTransform v).length = v.length) :
    (multiStepForecast cfg seq horizon).length = horizon ∧
    ∀ r ∈ multiStepForecast cfg seq horizon, r.length = n := by
  constructor
  · simp [multiStepForecast, recursiveSteps_length]
  · intro r hr
    simp only [multiStepForecast, List.mem_map] at hr
    obtain ⟨s, hs, rfl⟩ := hr
    rw [hinv]
    exact recursiveSteps_width cfg.predict n hpred horizon seq hwin s hs

/-- A concrete sequence-model stub for the C4 witness: window length 2,
constant predictor of width 2, identity scaler. -/
def c4Cfg : SeqModelConfig :=
  { seqLen := 2, predict := fun _ => [0, 0], transform := id,
    invTransform := id, std := fun _ => 0 }

/-- Witness for C4 at a 2-row window and horizon 3. -/
theorem C4_recursive_forecaster_shape_witness :
    (multiStepForecast c4Cfg [[1, 2], [3, 4]] 3).length = 3 ∧
    ∀ r ∈ multiStepForecast c4Cfg [[1, 2], [3, 4]] 3, r.length = 2 :=
  C4_recursive_forecaster_shape c4Cfg [[1, 2], [3, 4]] 3 2
    (by norm_num) rfl
    (by
      intro r hr
      simp only [List.mem_cons, List.not_mem_nil, or_false] at hr
      rcases hr with rfl | rfl <;> rfl)
    (fun w _ => rfl) (fun v => rfl)

/-! ## Claim C2: the hourly end-to-end scenario -/

/-- A concrete sequence-model stub for the C2 counterexample: the default
`SEQ_LEN = 168`, a constant 8-channel predictor and an identity scaler. -/
def c2Cfg : SeqModelConfig :=
  { seqLen := SEQ_LEN, predict := fun _ => List.replicate 8 1, transform := id,
    invTransform := id, std := fun _ => 0 }

/-- 168 hourly rows over 8 channels. -/
def c2Df : List FRow :=
  (List.range 168).map
    (fun (i : Nat) => { datum := (i : ℚ), products := List.replicate 8 1 })

/-- C2 counterexample: on the hourly path with 168 hourly rows over 8
channels and `days = 1`, `predict_csv` sets `horizon = days` (realmodel.py
line 243), so the forecast block has exactly 1 entry — not the 24 the claim
states. -/
theorem C2_counterexample :
    (hourlyPath c2Cfg c2Df 1 "M01AB").map (fun r => r.forecastValues.length)
      = .ok 1 ∧
    (hourlyPath c2Cfg c2Df 1 "M01AB").map (fun r => r.forecastValues.length)
      ≠ .ok 24 := by
  have hlen : c2Df.length = 168 := by simp [c2Df]
  have h1 : hourlyPath c2Cfg c2Df 1 "M01AB"
      = .ok (hourlyOk c2Cfg c2Df 1 "M01AB") := by
    unfold hourlyPath
    rw [if_neg (by rw [hlen]; norm_num [c2Cfg, SEQ_LEN])]
  have h2 : (hourlyOk c2Cfg c2Df 1 "M01AB").forecastValues.length = 1 := by
    simp [hourlyOk, multiStepForecast, recursiveSteps_length]
  rw [h1]
  constructor
  · simp [Except.map, h2]
  · simp [Except.map, h2]

/-- C2 as amended: whenever the history-length guard passes, the hourly
path answers `200 OK` and its forecast block has exactly `days` entries
(`horizon = days`), whose dates are one hour apart and all strictly after
the last historical timestamp. -/
theorem C2_amended_hourly_forecast_block (cfg : SeqModelConfig)
    (df : List FRow) (days : Nat) (category : String)
    (h : cfg.seqLen ≤ df.length) :
    hourlyPath cfg df days category = .ok (hourlyOk cfg df days category) ∧
    (hourlyOk cfg df days category).forecastValues.length = days ∧
    (hourlyOk cfg df days category).forecastDates.length = days ∧
    (∀ d ∈ (hourlyOk cfg df days category).forecastDates,
      qmax (df.map FRow.datum) < d) ∧
    (∀ i : Nat, i + 1 < days →
      (hourlyOk cfg df days category).forecastDates.getD (i + 1) 0 =
        (hourlyOk cfg df days category).forecastDates.getD i 0 + 1) := by
  refine ⟨?_, ?_, ?_, ?_, ?_⟩
  · unfold hourlyPath
    rw [if_neg (by omega)]
  · simp [hourlyOk, multiStepForecast, recursiveSteps_length]
  · simp [hourlyOk]
  · intro d hd
    simp only [hourlyOk, List.mem_map, List.mem_range] at hd
    obtain ⟨i, _, rfl⟩ := hd
    have : (0 : ℚ) < (i : ℚ) + 1 := by positivity
    linarith
  · intro i hi
    have hi' : i < days := by omega
    simp only [hourlyOk]
    rw [getD_map_range _ days (i + 1) hi, getD_map_range _ days i hi']
    push_cast
    ring

/-- Witness for C2's amended theorem at the concrete 168-row hourly input
with `days = 1`. -/
theorem C2_amended_hourly_forecast_block_witness :
    hourlyPath c2Cfg c2Df 1 "M01AB" = .ok (hourlyOk c2Cfg c2Df 1 "M01AB") ∧
    (hourlyOk c2Cfg c2Df 1 "M01AB").forecastValues.length = 1 ∧
    (hourlyOk c2Cfg c2Df 1 "M01AB").forecastDates.length = 1 ∧
    (∀ d ∈ (hourlyOk c2Cfg c2Df 1 "M01AB").forecastDates,
      qmax (c2Df.map FRow.datum) < d) ∧
    (∀ i : Nat, i + 1 < 1 →
      (hourlyOk c2Cfg c2Df 1 "M01AB").forecastDates.getD (i + 1) 0 =
        (hourlyOk c2Cfg c2Df 1 "M01AB").forecastDates.getD i 0 + 1) :=
  C2_amended_hourly_forecast_block c2Cfg c2Df 1 "M01AB"
    (by simp [c2Df, c2Cfg, SEQ_LEN])

/-! ## Claim C3: the Prophet-failure trend fallback -/

/-- C3: On the non-hourly path, any Prophet failure with a non-empty
cleaned series yields a `fallback: true` response (never an error: the
branch is total) whose forecast is `days` copies of `0.9 *
mean(last 30 values of the requested channel)` — `lastN 30` is the whole
list when fewer than 30 values exist, which is exactly the code's
`len >= 30` branch pair. -/
theorem C3_prophet_failure_fallback (prophet : Except String (List ℚ × List ℚ))
    (df : List FRow) (days : Nat) (freq category : String) (e : String)
    (hfail : prophet = .error e) (hne : df ≠ []) :
    (nonHourlyPath prophet df days freq category).fallback = true ∧
    (nonHourlyPath prophet df days freq category).forecastValues =
      List.replicate days
        ((9 / 10) * qmean (lastN 30
          (df.map (fun r => r.products.getD (categoryIndex category) 0)))) := by
  subst hfail
  have hcollapse : ∀ hv : List ℚ,
      (if 30 ≤ hv.length then qmean (lastN 30 hv) else qmean hv)
        = qmean (lastN 30 hv) := by
    intro hv
    split_ifs with h30
    · rfl
    · have hz : hv.length - 30 = 0 := by omega
      simp [lastN, hz]
  refine ⟨rfl, ?_⟩
  simp only [nonHourlyPath, fallbackResponse]
  rw [hcollapse]
  congr 1
  ring

/-- Witness for C3: one historical row with value 2 and `days = 3`; each
fallback point is `0.9 * 2 = 9/5`. -/
theorem C3_prophet_failure_fallback_witness :
    (nonHourlyPath (.error "boom") [{ datum := 0, products := [2] }] 3 "D"
      "M01AB").fallback = true ∧
    (nonHourlyPath (.error "boom") [{ datum := 0, products := [2] }] 3 "D"
      "M01AB").forecastValues = [9 / 5, 9 / 5, 9 / 5] := by
  obtain ⟨h1, h2⟩ := C3_prophet_failure_fallback (.error "boom")
    [{ datum := 0, products := [2] }] 3 "D" "M01AB" "boom" rfl (by simp)
  refine ⟨h1, ?_⟩
  rw [h2]
  have hidx : categoryIndex "M01AB" = 0 := by decide
  rw [hidx]
  norm_num [qmean, lastN, List.replicate]

/-! ## Claim C5: the output bounder -/

/-- C5 counterexample: on the additive path with historical series `[10]`
(so `hist_max = 10`), the raw forecast value 18 is neither negative nor
above `2 * hist_max = 20`, so it passes through unchanged — exceeding the
claimed bound `1.5 * hist_max = 15`. -/
theorem C5_counterexample :
    boundAdd [10] 18 = 18 ∧ ¬ boundAdd [10] 18 ≤ (3 / 2) * 10 := by
  have h : boundAdd [10] 18 = 18 := by
    norm_num [boundAdd, histMaxOr1, qmax]
  exact ⟨h, by rw [h]; norm_num⟩

/-- C5 as amended: with `hist_max' = historical max when positive, else
1.0`, the sequence-path bounder emits values in
`[0, hist_max' + 2 * std]` (with `std = np.std >= 0`) and the additive-path
bounder emits values in `[0, 2 * hist_max']` — values in
`(1.5 * hist_max', 2 * hist_max']` pass through unchanged, so `1.5×` is not
an upper bound, but `2×` is. No emitted value is negative on either path,
and `hist_max'` is the true historical max whenever that max is positive. -/
theorem C5_amended_output_bounds (histValues : List ℚ) (std v : ℚ)
    (hstd : 0 ≤ std) :
    (0 ≤ boundSeq histValues std v ∧
      boundSeq histValues std v ≤ histMaxOr1 histValues + 2 * std) ∧
    (0 ≤ boundAdd histValues v ∧
      boundAdd histValues v ≤ 2 * histMaxOr1 histValues) ∧
    (0 < qmax histValues → histMaxOr1 histValues = qmax histValues) := by
  have hpos : 0 < histMaxOr1 histValues := by
    unfold histMaxOr1
    split_ifs with h
    · exact h.2
    · norm_num
  refine ⟨⟨?_, ?_⟩, ⟨?_, ?_⟩, ?_⟩
  · exact le_min (le_max_right v 0) (by linarith)
  · exact min_le_right _ _
  · simp only [boundAdd]
    split_ifs <;> linarith
  · simp only [boundAdd]
    split_ifs <;> linarith
  · intro h
    have hne : histValues ≠ [] := by
      intro hnil
      rw [hnil] at h
      simp [qmax] at h
    unfold histMaxOr1
    rw [if_pos ⟨hne, h⟩]

/-- Witness for C5's amended theorem: history `[10]`, `std = 0`, raw
value `-5`. -/
theorem C5_amended_output_bounds_witness :
    (0 ≤ boundSeq [10] 0 (-5) ∧
      boundSeq [10] 0 (-5) ≤ histMaxOr1 [10] + 2 * 0) ∧
    (0 ≤ boundAdd [10] (-5) ∧
      boundAdd [10] (-5) ≤ 2 * histMaxOr1 [10]) ∧
    (0 < qmax [10] → histMaxOr1 [10] = qmax [10]) :=
  C5_amended_output_bounds [10] 0 (-5) le_rfl

/-! ## Claim C10: unknown-category substitution -/

/-- C10: A forecast request whose category is absent, empty, or not one of
the eight product channels is not rejected: `predict_csv` silently replaces
the category by `PRODUCT_COLS[0] = "M01AB"`, and the response's category
field on either path is that substituted channel. -/
theorem C10_unknown_category_substitution (category : Option String)
    (h : category = none ∨ ∃ c, category = some c ∧ c ∉ PRODUCT_COLS) :
    resolveCategory category = "M01AB" ∧
    (∀ prophet df days freq,
      (nonHourlyPath prophet df days freq (resolveCategory category)).category
        = "M01AB") ∧
    (∀ cfg df days resp,
      hourlyPath cfg df days (resolveCategory category) = .ok resp →
        resp.category = "M01AB") := by
  have hres : resolveCategory category = "M01AB" := by
    rcases h with rfl | ⟨c, rfl, hc⟩
    · rfl
    · show (if c = "" ∨ c ∉ PRODUCT_COLS then PRODUCT_COLS.headD "" else c)
        = "M01AB"
      rw [if_pos (Or.inr hc)]
      rfl
  refine ⟨hres, ?_, ?_⟩
  · intro prophet df days freq
    rw [hres]
    rcases prophet with e | ⟨fdates, fvals⟩
    · rfl
    · rfl
  · intro cfg df days resp hok
    rw [hres] at hok
    unfold hourlyPath at hok
    split_ifs at hok <;> cases hok
    rfl

/-- Witness for C10 at the unknown category `"FOO"` on the non-hourly
path. -/
theorem C10_unknown_category_substitution_witness :
    resolveCategory (some "FOO") = "M01AB" ∧
    (nonHourlyPath (.error "e") [] 0 "D"
      (resolveCategory (some "FOO"))).category = "M01AB" := by
  obtain ⟨h1, h2, _⟩ := C10_unknown_category_substitution (some "FOO")
    (Or.inr ⟨"FOO", rfl, by decide⟩)
  exact ⟨h1, h2 (.error "e") [] 0 "D"⟩

/-! ## Cleaning invariants (claims C6 and C7) -/

/-- The per-row `fillna(0.0)` step of `_prep_dataframe`. -/
def fillRow (r : Row) : Row := { r with products := r.products.map PValue.fillZero }

/-- `prepDataframe` written through `fillRow` (definitional). -/
theorem prepDataframe_eq (df : List Row) :
    prepDataframe df =
      ((df.insertionSort rowLE).filter
        (fun r => !(r.products.all PValue.isna))).map fillRow := rfl

/-- `fillZero` never produces NaN. -/
theorem fillZero_ne_nan (v : PValue) : v.fillZero ≠ PValue.nan := by
  cases v <;> simp [PValue.fillZero]

/-- `fillZero` is the identity away from NaN. -/
theorem fillZero_of_ne_nan {v : PValue} (h : v ≠ PValue.nan) : v.fillZero = v := by
  cases v <;> simp_all [PValue.fillZero]

/-- Mapping `fillna(0.0)` over a NaN-free list changes nothing. -/
theorem map_fillZero_of_no_nan (ps : List PValue)
    (h : ∀ v ∈ ps, v ≠ PValue.nan) : ps.map PValue.fillZero = ps := by
  induction ps with
  | nil => rfl
  | cons u us ih =>
      simp only [List.map_cons]
      rw [fillZero_of_ne_nan (h u (by simp)),
        ih (fun v hv => h v (by simp [hv]))]

/-- The cleaned series is sorted by timestamp (non-strictly). -/
theorem prep_sorted (df : List Row) : (prepDataframe df).Pairwise rowLE := by
  rw [prepDataframe_eq]
  have h1 : (df.insertionSort rowLE).Pairwise rowLE :=
    List.sorted_insertionSort rowLE df
  have h2 : ((df.insertionSort rowLE).filter
      (fun r => !(r.products.all PValue.isna))).Pairwise rowLE :=
    h1.sublist (List.filter_sublist _)
  rw [List.pairwise_map]
  exact h2.imp (fun hab => hab)

/-- No NaN cell survives cleaning. -/
theorem prep_no_nan (df : List Row) :
    ∀ r ∈ prepDataframe df, ∀ v ∈ r.products, v ≠ PValue.nan := by
  intro r hr v hv
  rw [prepDataframe_eq] at hr
  obtain ⟨s, _, rfl⟩ := List.mem_map.1 hr
  obtain ⟨u, _, rfl⟩ := List.mem_map.1 hv
  exact fillZero_ne_nan u

/-- Every cleaned row still has a non-empty product list: kept rows had at
least one non-NaN cell, and `fillna` preserves the length. -/
theorem prep_products_ne_nil (df : List Row) :
    ∀ r ∈ prepDataframe df, r.products ≠ [] := by
  intro r hr
  rw [prepDataframe_eq] at hr
  obtain ⟨s, hs, rfl⟩ := List.mem_map.1 hr
  have hkeep := List.of_mem_filter hs
  simp only [Bool.not_eq_eq_eq_not, Bool.not_true, List.all_eq_false] at hkeep
  obtain ⟨u, hu, _⟩ := hkeep
  intro hnil
  simp only [fillRow] at hnil
  rw [List.map_eq_nil_iff] at hnil
  rw [hnil] at hu
  exact List.not_mem_nil u hu

/-- First counterexample row for C6: timestamp 0, a `+inf` cell among the
8 product values. -/
def dirtyRow1 : Row :=
  { datum := 0,
    products := [PValue.posInf, .num 1, .num 1, .num 1, .num 1, .num 1,
      .num 1, .num 1] }

/-- Second counterexample row for C6: the same timestamp 0 again. -/
def dirtyRow2 : Row :=
  { datum := 0,
    products := [.num 2, .num 2, .num 2, .num 2, .num 2, .num 2, .num 2,
      .num 2] }

/-- A counterexample input for C6: two rows sharing the timestamp 0, one of
them carrying a `+inf` cell. -/
def dirtyDf : List Row := [dirtyRow1, dirtyRow2]

/-- Cleaning `dirtyDf` keeps both rows unchanged: the stable sort leaves
the equal timestamps in place, no row is all-NaN, and `fillna` touches
nothing. -/
theorem prep_dirtyDf : prepDataframe dirtyDf = dirtyDf := by
  rw [prepDataframe_eq]
  simp [dirtyDf, dirtyRow1, dirtyRow2, List.insertionSort, List.orderedInsert,
    rowLE, PValue.isna, fillRow, PValue.fillZero]

/-- C6 counterexample: the cleaner only sorts, so duplicate timestamps
survive (`[0, 0]` is not strictly increasing), and `fillna` only replaces
NaN, so the `+inf` cell also survives — both halves of the claimed
invariant fail on `dirtyDf`. -/
theorem C6_counterexample :
    ¬ ((prepDataframe dirtyDf).map Row.datum).Pairwise (· < ·) ∧
    ¬ (∀ r ∈ prepDataframe dirtyDf, ∀ v ∈ r.products, v.isFinite = true) := by
  constructor
  · rw [prep_dirtyDf]
    intro hp
    simp only [dirtyDf, dirtyRow1, dirtyRow2, List.map_cons, List.map_nil,
      List.pairwise_cons] at hp
    have := hp.1 (0 : ℚ) (by simp)
    exact lt_irrefl 0 this
  · intro hall
    rw [prep_dirtyDf] at hall
    have := hall dirtyRow1 (by simp [dirtyDf]) PValue.posInf
      (by simp [dirtyRow1])
    simp [PValue.isFinite] at this

/-- C6 as amended: after cleaning, timestamps are non-decreasing (sorted,
but duplicates are not removed) and no NaN survives in any channel value
(infinities, which pandas does not count as missing, may survive). -/
theorem C6_amended_cleaned_invariants (df : List Row) :
    ((prepDataframe df).map Row.datum).Pairwise (· ≤ ·) ∧
    ∀ r ∈ prepDataframe df, ∀ v ∈ r.products, v ≠ PValue.nan := by
  constructor
  · rw [List.pairwise_map]
    exact (prep_sorted df).imp (fun hab => hab)
  · exact prep_no_nan df

/-! ## Claim C7: idempotence of the cleaner under the real sort contract

`df.sort_values(DATE_COL)` uses pandas' default `kind='quicksort'` (numpy
introsort), which is documented as unstable: it reorders rows with equal
timestamps. Its contract is only that the output is a permutation of the
input sorted by timestamp; which permutation a tied block receives is an
implementation detail (numpy's introsort applies a fixed non-identity
permutation to any constant block longer than its 16-element
insertion-sort threshold). `prepDataframeWith` therefore carries the sort
as an opaque parameter constrained by that contract, exactly as the
detector carries `pd.infer_freq`; the stable `prepDataframe` above is the
member of the family that pandas realizes on small tied blocks only. -/

open scoped List

/-- `_prep_dataframe` with `df.sort_values` left as the opaque library call
it is: sort (by the given function), drop all-NaN rows, fill NaN with 0. -/
def prepDataframeWith (sortValues : List Row → List Row) (df : List Row) :
    List Row :=
  ((sortValues df).filter (fun r => !(r.products.all PValue.isna))).map fillRow

/-- The cleaner of the C6 development is the stable-sort instance of the
parametrized cleaner (definitional). -/
theorem prepDataframe_eq_with (df : List Row) :
    prepDataframe df = prepDataframeWith (fun l => l.insertionSort rowLE) df :=
  rfl

/-- The all-NaN filter keeps every row that has a non-empty, NaN-free
product list. -/
theorem filter_allna_eq_self (l : List Row)
    (hnn : ∀ r ∈ l, ∀ v ∈ r.products, v ≠ PValue.nan)
    (hne : ∀ r ∈ l, r.products ≠ []) :
    l.filter (fun r => !(r.products.all PValue.isna)) = l := by
  rw [List.filter_eq_self]
  intro r hr
  simp only [Bool.not_eq_eq_eq_not, Bool.not_true, List.all_eq_false]
  obtain ⟨u, hu⟩ := List.exists_mem_of_ne_nil _ (hne r hr)
  refine ⟨u, hu, ?_⟩
  have := hnn r hr u hu
  cases u <;> simp_all [PValue.isna]

/-- `fillna(0.0)` changes nothing on a NaN-free frame. -/
theorem map_fillRow_eq_self (l : List Row)
    (hnn : ∀ r ∈ l, ∀ v ∈ r.products, v ≠ PValue.nan) :
    l.map fillRow = l := by
  have : ∀ r ∈ l, fillRow r = id r := by
    intro r hr
    have hprods : r.products.map PValue.fillZero = r.products :=
      map_fillZero_of_no_nan r.products (hnn r hr)
    cases r with
    | mk d ps => simp only [fillRow, id] at hprods ⊢; rw [hprods]
  rw [List.map_congr_left this, List.map_id]

/-- No NaN survives the parametrized cleaner (whatever the sort does). -/
theorem prepW_no_nan (sortValues : List Row → List Row) (df : List Row) :
    ∀ r ∈ prepDataframeWith sortValues df, ∀ v ∈ r.products,
      v ≠ PValue.nan := by
  intro r hr v hv
  obtain ⟨s, _, rfl⟩ := List.mem_map.1 hr
  obtain ⟨u, _, rfl⟩ := List.mem_map.1 hv
  exact fillZero_ne_nan u

/-- Every row kept by the parametrized cleaner has a non-empty product
list. -/
theorem prepW_products_ne_nil (sortValues : List Row → List Row)
    (df : List Row) :
    ∀ r ∈ prepDataframeWith sortValues df, r.products ≠ [] := by
  intro r hr
  obtain ⟨s, hs, rfl⟩ := List.mem_map.1 hr
  have hkeep := List.of_mem_filter hs
  simp only [Bool.not_eq_eq_eq_not, Bool.not_true, List.all_eq_false] at hkeep
  obtain ⟨u, hu, _⟩ := hkeep
  intro hnil
  simp only [fillRow] at hnil
  rw [List.map_eq_nil_iff] at hnil
  rw [hnil] at hu
  exact List.not_mem_nil u hu

/-- The parametrized cleaner's output is sorted whenever the sort function
meets its contract. -/
theorem prepW_sorted (sortValues : List Row → List Row)
    (hsorted : ∀ l, (sortValues l).Pairwise rowLE) (df : List Row) :
    (prepDataframeWith sortValues df).Pairwise rowLE := by
  have h2 : ((sortValues df).filter
      (fun r => !(r.products.all PValue.isna))).Pairwise rowLE :=
    (hsorted df).sublist (List.filter_sublist _)
  rw [prepDataframeWith, List.pairwise_map]
  exact h2.imp (fun hab => hab)

/-- On a frame the sort leaves unchanged, the whole cleaner is the
identity provided nothing is NaN and no product list is empty. -/
theorem prepW_fixed (sortValues : List Row → List Row) (l : List Row)
    (hnn : ∀ r ∈ l, ∀ v ∈ r.products, v ≠ PValue.nan)
    (hne : ∀ r ∈ l, r.products ≠ [])
    (hsl : sortValues l = l) :
    prepDataframeWith sortValues l = l := by
  rw [prepDataframeWith, hsl, filter_allna_eq_self l hnn hne,
    map_fillRow_eq_self l hnn]

/-- Two permuted lists that are both sorted by timestamp coincide as soon
as the timestamps are duplicate-free: without ties, sortedness determines
the order completely. -/
theorem eq_of_perm_sorted_nodup {l₁ l₂ : List Row} (hp : l₁ ~ l₂)
    (hs₁ : l₁.Pairwise rowLE) (hs₂ : l₂.Pairwise rowLE)
    (hnd : (l₂.map Row.datum).Nodup) : l₁ = l₂ := by
  induction l₁ generalizing l₂ with
  | nil => exact hp.nil_eq
  | cons a t₁ ih =>
      cases l₂ with
      | nil => exact absurd hp.eq_nil (List.cons_ne_nil a t₁)
      | cons b t₂ =>
          have hab : a = b := by
            by_contra hne
            have ha2 : a ∈ b :: t₂ := hp.subset (List.mem_cons_self a t₁)
            have hb1 : b ∈ a :: t₁ := hp.symm.subset (List.mem_cons_self b t₂)
            have hd1 : a.datum ≤ b.datum := by
              rcases List.mem_cons.1 hb1 with heq | hmem
              · rw [heq]
              · exact (List.pairwise_cons.1 hs₁).1 b hmem
            have hd2 : b.datum ≤ a.datum := by
              rcases List.mem_cons.1 ha2 with heq | hmem
              · rw [heq]
              · exact (List.pairwise_cons.1 hs₂).1 a hmem
            have hdeq : a.datum = b.datum := le_antisymm hd1 hd2
            have hat2 : a ∈ t₂ := by
              rcases List.mem_cons.1 ha2 with heq | hmem
              · exact absurd heq hne
              · exact hmem
            simp only [List.map_cons, List.nodup_cons] at hnd
            exact hnd.1 (hdeq ▸ List.mem_map_of_mem Row.datum hat2)
          subst hab
          have ht : t₁ ~ t₂ := hp.cons_inv
          rw [ih ht (List.Pairwise.of_cons hs₁) (List.Pairwise.of_cons hs₂)
            (by simp only [List.map_cons, List.nodup_cons] at hnd
                exact hnd.2)]

/-- Swap the first two rows when their timestamps tie (a minimal tie
reordering, as an unstable sort is allowed to produce). -/
def swapHeadTie : List Row → List Row
  | a :: b :: rest =>
      if a.datum = b.datum then b :: a :: rest else a :: b :: rest
  | l => l

/-- A member of `sort_values`' contract family that, like numpy's unstable
quicksort on tied blocks (non-identity tie permutation beyond the
16-element insertion-sort threshold), does not preserve the incoming order
of equal timestamps. -/
def unstableSort (l : List Row) : List Row :=
  swapHeadTie (l.insertionSort rowLE)

/-- Swapping a leading tied pair is a permutation. -/
theorem swapHeadTie_perm (l : List Row) : swapHeadTie l ~ l := by
  match l with
  | [] => exact List.Perm.refl _
  | [a] => exact List.Perm.refl _
  | a :: b :: rest =>
      simp only [swapHeadTie]
      split_ifs
      · exact List.Perm.swap a b rest
      · exact List.Perm.refl _

/-- Swapping a leading tied pair preserves sortedness. -/
theorem swapHeadTie_sorted {l : List Row} (h : l.Pairwise rowLE) :
    (swapHeadTie l).Pairwise rowLE := by
  match l with
  | [] => exact h
  | [a] => exact h
  | a :: b :: rest =>
      simp only [swapHeadTie]
      split_ifs with hd
      · rw [List.pairwise_cons] at h
        obtain ⟨ha, hbr⟩ := h
        rw [List.pairwise_cons] at hbr
        obtain ⟨hb, hrest⟩ := hbr
        rw [List.pairwise_cons]
        refine ⟨?_, ?_⟩
        · intro x hx
          rcases List.mem_cons.1 hx with heq | hmem
          · rw [heq]
            show b.datum ≤ a.datum
            rw [hd]
          · exact hb x hmem
        · rw [List.pairwise_cons]
          exact ⟨fun x hx => ha x (List.mem_cons_of_mem b hx), hrest⟩
      · exact h

/-- `unstableSort` meets the `sort_values` contract: it permutes. -/
theorem unstableSort_perm (l : List Row) : unstableSort l ~ l :=
  (swapHeadTie_perm _).trans (List.perm_insertionSort rowLE l)

/-- `unstableSort` meets the `sort_values` contract: it sorts by
timestamp. -/
theorem unstableSort_sorted (l : List Row) :
    (unstableSort l).Pairwise rowLE :=
  swapHeadTie_sorted (List.sorted_insertionSort rowLE l)

/-- First tied counterexample row: timestamp 0, all products 1.0. -/
def tiedRow1 : Row :=
  { datum := 0,
    products := [.num 1, .num 1, .num 1, .num 1, .num 1, .num 1, .num 1,
      .num 1] }

/-- Second tied counterexample row: timestamp 0 again, all products 2.0. -/
def tiedRow2 : Row :=
  { datum := 0,
    products := [.num 2, .num 2, .num 2, .num 2, .num 2, .num 2, .num 2,
      .num 2] }

/-- Two clean rows sharing one timestamp, with distinct product values. -/
def tiedDf : List Row := [tiedRow1, tiedRow2]

/-- C7 counterexample: with a sort meeting `sort_values`' contract but
reordering tied timestamps — as numpy's unstable quicksort does on tied
blocks — cleaning `tiedDf` is not idempotent: the first cleaning orders
the tied rows one way, re-cleaning the (already clean) output reorders
them again, so `prep (prep df) ≠ prep df`. `unstableSort_perm` and
`unstableSort_sorted` certify that the chosen sort is a legitimate member
of the contract family. -/
theorem C7_counterexample :
    prepDataframeWith unstableSort (prepDataframeWith unstableSort tiedDf)
      ≠ prepDataframeWith unstableSort tiedDf := by
  have h1 : prepDataframeWith unstableSort tiedDf = [tiedRow2, tiedRow1] := by
    simp [prepDataframeWith, unstableSort, swapHeadTie, tiedDf, tiedRow1,
      tiedRow2, List.insertionSort, List.orderedInsert, rowLE, PValue.isna,
      fillRow, PValue.fillZero]
  have h2 : prepDataframeWith unstableSort [tiedRow2, tiedRow1]
      = [tiedRow1, tiedRow2] := by
    simp [prepDataframeWith, unstableSort, swapHeadTie, tiedRow1, tiedRow2,
      List.insertionSort, List.orderedInsert, rowLE, PValue.isna, fillRow,
      PValue.fillZero]
  rw [h1, h2]
  intro hc
  rw [List.cons.injEq] at hc
  have : tiedRow1 = tiedRow2 := hc.1
  rw [tiedRow1, tiedRow2, Row.mk.injEq] at this
  norm_num at this

/-- C7 as amended: for every sort meeting `sort_values`' documented
contract (a permutation of the input, sorted by timestamp; tie order
unspecified because `kind='quicksort'` is unstable), re-cleaning a
cleaned series returns a permutation of it — same rows, possibly
reordered within tied timestamps — and returns it exactly unchanged
whenever the raw input's timestamps are duplicate-free. Exact idempotence
fails in general for tied timestamps (see the counterexample). -/
theorem C7_amended_cleaner_idempotent_up_to_ties
    (sortValues : List Row → List Row)
    (hperm : ∀ l, sortValues l ~ l)
    (hsorted : ∀ l, (sortValues l).Pairwise rowLE)
    (df : List Row) :
    prepDataframeWith sortValues (prepDataframeWith sortValues df) ~
      prepDataframeWith sortValues df ∧
    ((df.map Row.datum).Nodup →
      prepDataframeWith sortValues (prepDataframeWith sortValues df) =
        prepDataframeWith sortValues df) := by
  have hnn := prepW_no_nan sortValues df
  have hne := prepW_products_ne_nil sortValues df
  have hfix : (prepDataframeWith sortValues df).filter
      (fun r => !(r.products.all PValue.isna)) =
        prepDataframeWith sortValues df :=
    filter_allna_eq_self _ hnn hne
  have hmapfix : (prepDataframeWith sortValues df).map fillRow =
      prepDataframeWith sortValues df :=
    map_fillRow_eq_self _ hnn
  constructor
  · calc prepDataframeWith sortValues (prepDataframeWith sortValues df)
        = ((sortValues (prepDataframeWith sortValues df)).filter
            (fun r => !(r.products.all PValue.isna))).map fillRow := rfl
      _ ~ ((prepDataframeWith sortValues df).filter
            (fun r => !(r.products.all PValue.isna))).map fillRow :=
          List.Perm.map fillRow
            ((hperm (prepDataframeWith sortValues df)).filter _)
      _ = prepDataframeWith sortValues df := by rw [hfix, hmapfix]
  · intro hnodup
    have houtnodup :
        ((prepDataframeWith sortValues df).map Row.datum).Nodup := by
      have hdat : (prepDataframeWith sortValues df).map Row.datum =
          ((sortValues df).filter
            (fun r => !(r.products.all PValue.isna))).map Row.datum := by
        rw [prepDataframeWith, List.map_map]
        exact List.map_congr_left (fun r _ => rfl)
      rw [hdat]
      have hsub : ((sortValues df).filter
          (fun r => !(r.products.all PValue.isna))).map Row.datum <+
            (sortValues df).map Row.datum :=
        (List.filter_sublist _).map Row.datum
      have hsortnodup : ((sortValues df).map Row.datum).Nodup :=
        ((hperm df).map Row.datum).symm.nodup hnodup
      exact List.Nodup.sublist hsub hsortnodup
    have hsout : sortValues (prepDataframeWith sortValues df) =
        prepDataframeWith sortValues df :=
      eq_of_perm_sorted_nodup (hperm _) (hsorted _)
        (prepW_sorted sortValues hsorted df) houtnodup
    exact prepW_fixed sortValues _ hnn hne hsout

/-- Two clean rows with distinct timestamps, for the C7 witness. -/
def distinctDf : List Row :=
  [ { datum := 0, products := [.num 1] },
    { datum := 1, products := [.num 2] } ]

/-- Witness for C7's amended theorem: the unstable sort itself, applied to
a duplicate-free two-row frame, where both the permutation and the exact
equality conclusions are available. -/
theorem C7_amended_cleaner_idempotent_up_to_ties_witness :
    prepDataframeWith unstableSort
        (prepDataframeWith unstableSort distinctDf) ~
      prepDataframeWith unstableSort distinctDf ∧
    ((distinctDf.map Row.datum).Nodup →
      prepDataframeWith unstableSort
          (prepDataframeWith unstableSort distinctDf) =
        prepDataframeWith unstableSort distinctDf) :=
  C7_amended_cleaner_idempotent_up_to_ties unstableSort unstableSort_perm
    unstableSort_sorted distinctDf

/-! ## The data-format validator (claim C9)

`DataProcessor.validate_data_format` (utils/data_processor.py lines 19-64)
probes raw records; a cell is abstracted by whether `pd.to_datetime` would
parse it and whether `float()` would parse it. -/

/-- A raw cell as the validator probes it. -/
structure FieldVal where
  dateParses : Bool
  floatParses : Bool
deriving DecidableEq

/-- One element of the analysis payload: either not a dict at all, or a
dict from field names to cells. -/
inductive RawItem where
  | notDict : RawItem
  | dict : List (String × FieldVal) → RawItem
deriving DecidableEq

/-- `self.required_columns` (data_processor.py line 16). -/
def requiredColumns : List String := ["date", "sales", "product", "region"]

/-- The numeric fields probed per record (data_processor.py line 56). -/
def numericFields : List String :=
  ["sales", "volume", "price", "units", "revenue"]

/-- `col in record` on a dict. -/
def hasField (r : List (String × FieldVal)) (k : String) : Bool :=
  r.any (fun p => p.1 == k)

/-- `record[col]` lookup. -/
def getField (r : List (String × FieldVal)) (k : String) : Option FieldVal :=
  (r.find? (fun p => p.1 == k)).map (fun p => p.2)

/-- The error messages one iteration of the sampling loop of
`validate_data_format` appends for record `i` (data_processor.py lines
38-62): the not-a-dict check (with `continue`), then one message per
missing required column, then the date-format probe, then one message per
unparsable numeric field. -/
def recordErrors (i : Nat) (item : RawItem) : List String :=
  match item with
  | .notDict => ["Record " ++ toString i ++ " is not a dictionary"]
  | .dict r =>
      ((requiredColumns.filter (fun c => !(hasField r c))).map
        (fun c => "Record " ++ toString i ++ " missing required column: " ++ c))
      ++ (match getField r "date" with
          | some fv =>
              if fv.dateParses then []
              else ["Record " ++ toString i ++ " has invalid date format"]
          | none => [])
      ++ (numericFields.filterMap (fun f =>
          match getField r f with
          | some fv =>
              if fv.floatParses then none
              else some ("Record " ++ toString i ++ " has non-numeric " ++ f)
          | none => none))

/-- `validate_data_format` (data_processor.py lines 19-64): empty data
short-circuits; otherwise the first `min(5, len(data))` records are
checked and all their errors accumulate in order; the verdict is
`len(errors) == 0`. -/
def validateDataFormat (data : List RawItem) : Bool × List String :=
  if data.isEmpty then (false, ["Data is empty"])
  else
    let sampleSize := min 5 data.length
    let errors := ((data.take sampleSize).enum).foldl
      (fun acc p => acc ++ recordErrors p.1 p.2) []
    (errors.isEmpty, errors)

/-- Folding list-append over per-record reports is a flatten. -/
theorem foldl_append_errors (f : Nat × RawItem → List String) :
    ∀ (l : List (Nat × RawItem)) (acc : List String),
      l.foldl (fun a p => a ++ f p) acc = acc ++ (l.map f).flatten := by
  intro l
  induction l with
  | nil => intro acc; simp
  | cons p ps ih => intro acc; simp [ih, List.append_assoc]

/-- A record with valid `date`, `product` and `region` but no `sales`
column at all. -/
def missingSalesRec : RawItem :=
  .dict [("date", ⟨true, true⟩), ("product", ⟨true, true⟩),
    ("region", ⟨true, true⟩)]

/-- C9 counterexample: a dataset of two records, each lacking the required
`sales` column, is reported with TWO missing-column errors — one per
sampled record — so a missing required column is not "a single structural
error checked once for the whole dataset". -/
theorem C9_counterexample :
    (validateDataFormat [missingSalesRec, missingSalesRec]).2 =
      ["Record 0 missing required column: sales",
       "Record 1 missing required column: sales"] ∧
    (validateDataFormat [missingSalesRec, missingSalesRec]).2.length = 2 := by
  constructor <;> rfl

/-- C9 as amended: the validator checks required columns per sampled record
(the first `min(5, n)` records), not once per dataset; within that sample
it accumulates without short-circuiting — the returned error list is
exactly the in-order concatenation of every sampled record's report, so
every detected problem of every sampled record appears in the result. -/
theorem C9_amended_validator_accumulation (data : List RawItem)
    (hne : data ≠ []) :
    (validateDataFormat data).2 =
      ((data.take (min 5 data.length)).enum.map
        (fun p => recordErrors p.1 p.2)).flatten ∧
    ∀ p ∈ (data.take (min 5 data.length)).enum,
      ∀ e ∈ recordErrors p.1 p.2, e ∈ (validateDataFormat data).2 := by
  have hempty : data.isEmpty = false := by
    cases data with
    | nil => exact absurd rfl hne
    | cons a l => rfl
  have heq : (validateDataFormat data).2 =
      ((data.take (min 5 data.length)).enum.map
        (fun p => recordErrors p.1 p.2)).flatten := by
    unfold validateDataFormat
    rw [hempty]
    simp only [Bool.false_eq_true, if_false, foldl_append_errors,
      List.nil_append]
  refine ⟨heq, ?_⟩
  intro p hp e he
  rw [heq]
  exact List.mem_flatten_of_mem (List.mem_map_of_mem _ hp) he

/-- Witness for C9's amended theorem on the concrete one-record dataset. -/
theorem C9_amended_validator_accumulation_witness :
    (validateDataFormat [missingSalesRec]).2 =
      (([missingSalesRec].take (min 5 [missingSalesRec].length)).enum.map
        (fun p => recordErrors p.1 p.2)).flatten ∧
    ∀ p ∈ ([missingSalesRec].take (min 5 [missingSalesRec].length)).enum,
      ∀ e ∈ recordErrors p.1 p.2,
        e ∈ (validateDataFormat [missingSalesRec]).2 :=
  C9_amended_validator_accumulation [missingSalesRec] (by simp)

end PharmaSpec
